import Mathlib

/-
Verification of the job orchestration and tracking core of the rclone hub
backend (src/backend/app.py) against its natural-language specification.

The Python source is shallowly embedded: the mutable SQLite jobs table
becomes an explicit list of Job rows threaded through each operation, the
node registry CONFIG becomes an immutable association list, and the network
becomes an oracle mapping each outgoing rc call to its HTTP outcome.  Every
operation additionally returns the trace of gateway calls it issued, so
that at-most-once properties can be stated.
-/

namespace RcloneHub

/-- Flat JSON values as they occur in flag dictionaries, payloads and
decoded agent responses. -/
inductive JVal where
  | null : JVal
  | bool : Bool → JVal
  | num : Int → JVal
  | str : String → JVal
deriving DecidableEq, Repr

/-- A node entry of the registry, as loaded from config.json:
dict with keys id, name, ip, port. -/
structure Node where
  id : String
  name : String
  ip : String
  port : Nat
deriving DecidableEq, Repr

/-- The global CONFIG value: nodes indexed by id (a Python dict, modelled
as an association list keyed by the node id) plus the api key. -/
structure Config where
  nodes : List (String × Node)
  api_key : String

/-- CONFIG["nodes"].get(node_id): first (and, for a dict, only) entry
with the given key. -/
def lookupNode (cfg : Config) (node_id : String) : Option Node :=
  (cfg.nodes.find? (fun p => p.1 == node_id)).map (fun p => p.2)

/-- One row of the jobs table (columns of CREATE TABLE jobs in get_db). -/
structure Job where
  uid : String
  node : String
  kind : String
  src : String
  dst : String
  flags : List (String × JVal)
  rc_jobid : Option JVal
  status : String
  bytes_done : Int
  files_done : Int
  created_at : Int
  updated_at : Int
deriving DecidableEq, Repr

/-- SELECT ... FROM jobs WHERE uid=? : the row with the given primary key. -/
def getJob (store : List Job) (u : String) : Option Job :=
  store.find? (fun j => j.uid == u)

/-- The record of one HTTP POST issued by rc_call: which node was addressed,
the rc path, and the JSON payload that was sent. -/
structure RcCallRec where
  nodeId : String
  path : String
  payload : List (String × JVal)
deriving DecidableEq, Repr

/-- The outcome of the HTTP POST inside rc_call: either the transport raised
(httpx.RequestError) or a response with a status code, raw text body and
decoded JSON object arrived. -/
inductive HttpResult where
  | transportError : String → HttpResult
  | response : Nat → String → List (String × JVal) → HttpResult
deriving DecidableEq, Repr

/-- An HTTPException raised by the backend: status code plus detail string. -/
structure HubError where
  statusCode : Nat
  detail : String
deriving DecidableEq, Repr

/-- rc_call from app.py: issue one POST to http://ip:port/rc/path; a
transport failure becomes a 502 naming the node, a status other than 200
becomes a 502 carrying the status code and raw body, and otherwise the
decoded JSON is returned.  The single HttpResult argument is the outcome of
the one POST this invocation performs (no retry exists in the source). -/
def rc_call (node : Node) (path : String) (payload : List (String × JVal))
    (result : HttpResult) : Except HubError (List (String × JVal)) :=
  match result with
  | HttpResult.transportError msg =>
      Except.error ⟨502, "Error contacting " ++ node.id ++ ": " ++ msg⟩
  | HttpResult.response code body js =>
      if code ≠ 200 then Except.error ⟨502, "rc error " ++ toString code ++ ": " ++ body⟩
      else Except.ok js

/-- Python dict read d.get(k): the value at the first (only) occurrence of
the key. -/
def dictGet (d : List (String × JVal)) (k : String) : Option JVal :=
  (d.find? (fun p => p.1 == k)).map (fun p => p.2)

/-- Python dict write d[k] = v: replace the value at an existing key, or
append the new binding at the end (dict insertion order). -/
def dictSet (d : List (String × JVal)) (k : String) (v : JVal) :
    List (String × JVal) :=
  if d.any (fun p => p.1 == k) then
    d.map (fun p => if p.1 == k then (k, v) else p)
  else d ++ [(k, v)]

/-- Truthiness of an optional string body field, as tested by
"if not node or not src or not dst": present and non-empty. -/
def truthyStr : Option String → Bool
  | none => false
  | some s => decide (s ≠ "")

/-- save_job from app.py: INSERT OR REPLACE INTO jobs keyed by uid. -/
def save_job (job : Job) (store : List Job) : List Job :=
  if store.any (fun j => j.uid == job.uid) then
    store.map (fun j => if j.uid == job.uid then job else j)
  else store ++ [job]

/-- UPDATE jobs SET uid=new WHERE uid=old (the idempotency-key rename in
create_job). -/
def renameUid (store : List Job) (oldU newU : String) : List Job :=
  store.map (fun j => if j.uid == oldU then { j with uid := newU } else j)

/-- UPDATE jobs SET status=?, updated_at=? WHERE uid=? (the write performed
by stop_job on success). -/
def updateStatus (store : List Job) (u newStatus : String) (now : Int) :
    List Job :=
  store.map (fun j =>
    if j.uid == u then { j with status := newStatus, updated_at := now } else j)

/-- The flag whitelist of start_operation.  In the source it is a dict
mapping each supported API flag name to its rc equivalent; every entry maps
a name to itself, so the keys suffice. -/
def flag_map : List String :=
  ["checksum", "sizeOnly", "transfers", "checkers", "bwlimit", "dryRun",
   "ignoreExisting", "fastList"]

/-- The op_payload built by start_operation: start from the dict with
_async, srcFs and dstFs, then walk the caller flags in order and copy over
exactly the whitelisted ones. -/
def buildPayload (src dst : String) (flags : List (String × JVal)) :
    List (String × JVal) :=
  flags.foldl
    (fun acc kv => if kv.1 ∈ flag_map then dictSet acc kv.1 kv.2 else acc)
    [("_async", JVal.bool true), ("srcFs", JVal.str src), ("dstFs", JVal.str dst)]

/-- The path_map of start_operation: rc path per job kind. -/
def path_map (kind : String) : Option String :=
  if kind = "copy" then some "operations/copyfs"
  else if kind = "move" then some "operations/movefs"
  else if kind = "sync" then some "sync/sync"
  else none

/-- start_operation from app.py.  Arguments beyond the source signature:
the store (the jobs table), net (the outcome each outgoing rc call would
have), freshUid (the uuid4 value) and now (int(time.time())).  Returns the
HTTP result or error, the store after the operation, and the trace of rc
calls issued. -/
def start_operation (cfg : Config) (store : List Job)
    (net : RcCallRec → HttpResult) (kind node_id src dst : String)
    (flags : List (String × JVal)) (freshUid : String) (now : Int) :
    Except HubError String × List Job × List RcCallRec :=
  match lookupNode cfg node_id with
  | none => (Except.error ⟨404, "Unknown node " ++ node_id⟩, store, [])
  | some node =>
    let op_payload := buildPayload src dst flags
    match path_map kind with
    | none => (Except.error ⟨400, "Unsupported job type: " ++ kind⟩, store, [])
    | some rc_path =>
      let call : RcCallRec := ⟨node_id, rc_path, op_payload⟩
      match rc_call node rc_path op_payload (net call) with
      | Except.error e => (Except.error e, store, [call])
      | Except.ok result =>
        let job_record : Job :=
          ⟨freshUid, node_id, kind, src, dst, flags, dictGet result "jobid",
            "running", 0, 0, now, now⟩
        (Except.ok freshUid, save_job job_record store, [call])

/-- The idempotency short-circuit at the top of create_job: the header is
truthy (present and non-empty) and a job row with uid equal to the key
exists. -/
def idemHit (store : List Job) : Option String → Bool
  | none => false
  | some k => decide (k ≠ "") && (getJob store k).isSome

/-- create_job from app.py (POST /v1/jobs/kind): validate the kind and the
body fields, consult the idempotency key, run start_operation, and finally
rename the fresh uid to the idempotency key when one was supplied.  Returns
the jobUid or error, the store after the request, and the rc call trace. -/
def create_job (cfg : Config) (store : List Job)
    (net : RcCallRec → HttpResult) (kind : String)
    (node src dst : Option String) (flags : List (String × JVal))
    (idempotency_key : Option String) (freshUid : String) (now : Int) :
    Except HubError String × List Job × List RcCallRec :=
  if ¬ (kind = "copy" ∨ kind = "move" ∨ kind = "sync") then
    (Except.error ⟨400, "Invalid job kind"⟩, store, [])
  else if truthyStr node = false ∨ truthyStr src = false ∨ truthyStr dst = false then
    (Except.error ⟨400, "Missing required fields: node, src, dst"⟩, store, [])
  else if idemHit store idempotency_key then
    (Except.ok (idempotency_key.getD ""), store, [])
  else
    match start_operation cfg store net kind (node.getD "") (src.getD "")
        (dst.getD "") flags freshUid now with
    | (Except.error e, s1, tr) => (Except.error e, s1, tr)
    | (Except.ok uid0, s1, tr) =>
      match idempotency_key with
      | none => (Except.ok uid0, s1, tr)
      | some k =>
        if k = "" then (Except.ok uid0, s1, tr)
        else (Except.ok k, renameUid s1 uid0 k, tr)

/-- The JSON object returned by GET /v1/jobs/uid. -/
structure JobStatusView where
  uid : String
  node : String
  kind : String
  src : String
  dst : String
  flags : List (String × JVal)
  rc_jobid : Option JVal
  status : String
  bytesDone : Int
  filesDone : Int
  createdAt : Int
  updatedAt : Int
deriving DecidableEq, Repr

/-- job_status from app.py: read the row and reshape it into the response
object (flags make a round trip through json.dumps and json.loads). -/
def job_status (store : List Job) (u : String) :
    Except HubError JobStatusView :=
  match getJob store u with
  | none => Except.error ⟨404, "Job not found"⟩
  | some j =>
    Except.ok ⟨j.uid, j.node, j.kind, j.src, j.dst, j.flags, j.rc_jobid,
      j.status, j.bytes_done, j.files_done, j.created_at, j.updated_at⟩

/-- The result object of POST /v1/jobs/uid/stop. -/
structure StopResult where
  uid : String
  stopped : Bool
  message : Option String
deriving DecidableEq, Repr

/-- stop_job from app.py: look the job up, refuse nothing but report
stopped=false when it is not running, resolve the node, send job/stop with
the remote jobid, and only then write status=stopped with a new
updated_at. -/
def stop_job (cfg : Config) (store : List Job)
    (net : RcCallRec → HttpResult) (u : String) (now : Int) :
    Except HubError StopResult × List Job × List RcCallRec :=
  match getJob store u with
  | none => (Except.error ⟨404, "Job not found"⟩, store, [])
  | some j =>
    if j.status ≠ "running" then
      (Except.ok ⟨u, false, some ("Job status is " ++ j.status ++ ", nothing to stop")⟩,
        store, [])
    else
      match lookupNode cfg j.node with
      | none => (Except.error ⟨404, "Node " ++ j.node ++ " not found"⟩, store, [])
      | some node =>
        let payload : List (String × JVal) := [("jobid", j.rc_jobid.getD JVal.null)]
        let call : RcCallRec := ⟨j.node, "job/stop", payload⟩
        match rc_call node "job/stop" payload (net call) with
        | Except.error e => (Except.error e, store, [call])
        | Except.ok _ =>
          (Except.ok ⟨u, true, none⟩, updateStatus store u "stopped" now, [call])

/-- One NDJSON line yielded by the stream: the two dict shapes
\x7bt, node, stats\x7d and \x7bt, node, error: true\x7d are merged into one
record where presence of the stats key is stats.isSome and presence of the
error key is the error flag. -/
structure StreamEvent where
  t : Int
  node : String
  stats : Option (List (String × JVal))
  error : Bool
deriving DecidableEq, Repr

/-- One round of the while-True loop of event_generator in stream_events:
for every registry entry call core/stats and yield either the stats event
or, when the call raises, the error-flagged event for that node. -/
def event_generator_round (cfg : Config) (net : RcCallRec → HttpResult)
    (now : Int) : List StreamEvent :=
  cfg.nodes.map (fun p =>
    match rc_call p.2 "core/stats" [] (net ⟨p.1, "core/stats", []⟩) with
    | Except.ok stats => ⟨now, p.1, some stats, false⟩
    | Except.error _ => ⟨now, p.1, none, true⟩)

/-- A concrete registry node used to exercise the theorems on closed
inputs. -/
def nodeA : Node := ⟨"A", "Node A", "10.0.0.1", 5572⟩

/-- A second concrete node whose agent is unreachable in the sample
network. -/
def nodeB : Node := ⟨"B", "Node B", "10.0.0.2", 5572⟩

/-- A one-node sample registry. -/
def cfgA : Config := ⟨[("A", nodeA)], ""⟩

/-- A two-node sample registry. -/
def cfgAB : Config := ⟨[("A", nodeA), ("B", nodeB)], ""⟩

/-- A sample network where every call answers 200 with jobid 42. -/
def netJob42 : RcCallRec → HttpResult :=
  fun _ => HttpResult.response 200 "" [("jobid", JVal.num 42)]

/-- A sample network where every call fails at the transport level. -/
def netDown : RcCallRec → HttpResult :=
  fun _ => HttpResult.transportError "connection refused"

/-- A sample network where node A answers and node B is unreachable. -/
def netAonly : RcCallRec → HttpResult :=
  fun c => if c.nodeId = "A" then HttpResult.response 200 "" [("ok", JVal.bool true)]
    else HttpResult.transportError "connection refused"

/-- The rc call recorded for a sample copy from s:a to d:b on node A with no
flags. -/
def callCopyAB : RcCallRec :=
  ⟨"A", "operations/copyfs",
    [("_async", JVal.bool true), ("srcFs", JVal.str "s:a"), ("dstFs", JVal.str "d:b")]⟩

/-- The sample job row created under idempotency key K. -/
def jobK : Job :=
  ⟨"K", "A", "copy", "s:a", "d:b", [], some (JVal.num 42), "running", 0, 0, 3, 3⟩

/-- A sample running job row with uid J. -/
def jobRun : Job :=
  ⟨"J", "A", "copy", "s:a", "d:b", [], some (JVal.num 42), "running", 0, 0, 3, 3⟩

/-- The sample row jobRun after a successful stop at time 9. -/
def jobStopped : Job :=
  ⟨"J", "A", "copy", "s:a", "d:b", [], some (JVal.num 42), "stopped", 0, 0, 3, 9⟩

/-- The rc call recorded when stopping jobRun. -/
def stopCallJ : RcCallRec := ⟨"A", "job/stop", [("jobid", JVal.num 42)]⟩

/-- Sample flag dictionary holding one whitelisted and one unrecognized
flag. -/
def cexFlags : List (String × JVal) :=
  [("checksum", JVal.bool true), ("notAFlag", JVal.bool true)]

/-- The job row created when submitting with cexFlags: note the flags column
stores the caller dictionary verbatim. -/
def jobCex : Job :=
  ⟨"u1", "A", "copy", "s:a", "d:b", cexFlags, some (JVal.num 42), "running",
    0, 0, 3, 3⟩

/-- The rc call recorded for the cexFlags submission: only the whitelisted
flag reached the payload. -/
def cexCall : RcCallRec :=
  ⟨"A", "operations/copyfs",
    [("_async", JVal.bool true), ("srcFs", JVal.str "s:a"),
      ("dstFs", JVal.str "d:b"), ("checksum", JVal.bool true)]⟩

/-- The status view of jobCex. -/
def cexView : JobStatusView :=
  ⟨"u1", "A", "copy", "s:a", "d:b", cexFlags, some (JVal.num 42), "running",
    0, 0, 3, 3⟩

/-- Forward-only status discipline between a store before and after one
operation: rows present in both keep their status or move from running to
stopped, and rows that appear carry status running. -/
def statusForward (s s' : List Job) : Prop :=
  (∀ u j j', getJob s u = some j → getJob s' u = some j' →
    (j'.status = j.status ∨ (j.status = "running" ∧ j'.status = "stopped"))) ∧
  (∀ u j', getJob s u = none → getJob s' u = some j' → j'.status = "running")

deriving instance DecidableEq for Except

/-- Unfolding of getJob over a cons cell. -/
theorem getJob_cons (j : Job) (s : List Job) (u : String) :
    getJob (j :: s) u = if j.uid = u then some j else getJob s u := by
  by_cases h : j.uid = u <;> simp [getJob, h]

/-- getJob misses exactly when no row carries the uid. -/
theorem getJob_eq_none_iff (store : List Job) (u : String) :
    getJob store u = none ↔ ∀ j ∈ store, j.uid ≠ u := by
  simp [getJob, List.find?_eq_none]

/-- A row found by uid carries that uid. -/
theorem getJob_some_uid {store : List Job} {u : String} {j : Job}
    (h : getJob store u = some j) : j.uid = u := by
  have := List.find?_some h
  simpa using this

/-- getJob distributes over append, preferring the left list. -/
theorem getJob_append (s t : List Job) (u : String) :
    getJob (s ++ t) u = (getJob s u).or (getJob t u) := by
  simp [getJob, List.find?_append]

/-- When the uid is fresh, INSERT OR REPLACE is a plain append. -/
theorem save_job_fresh {j : Job} {store : List Job}
    (h : getJob store j.uid = none) : save_job j store = store ++ [j] := by
  rw [getJob_eq_none_iff] at h
  rw [save_job, if_neg]
  intro hc
  rw [List.any_eq_true] at hc
  obtain ⟨j', hj', he⟩ := hc
  exact h j' hj' (by simpa using he)

/-- Renaming a uid to itself rewrites nothing. -/
theorem renameUid_same (s : List Job) (u : String) : renameUid s u u = s := by
  induction s with
  | nil => rfl
  | cons j t ih =>
    simp only [renameUid, List.map_cons] at ih ⊢
    rw [ih]
    by_cases h : j.uid = u
    · cases j
      simp_all
    · simp [h]

/-- Uids other than the renamed pair are untouched by the rename. -/
theorem getJob_renameUid_other (s : List Job) (oldU newU u : String)
    (h1 : u ≠ oldU) (h2 : u ≠ newU) :
    getJob (renameUid s oldU newU) u = getJob s u := by
  induction s with
  | nil => rfl
  | cons j t ih =>
    by_cases hj : j.uid = oldU
    · simp only [renameUid, List.map_cons] at ih ⊢
      rw [if_pos (by simp [hj])]
      rw [getJob_cons, getJob_cons]
      have hu1 : ¬ (({ j with uid := newU } : Job).uid = u) := fun he => h2 he.symm
      have hu2 : ¬ (j.uid = u) := fun he => h1 (hj ▸ he).symm
      rw [if_neg hu1, if_neg hu2]
      exact ih
    · simp only [renameUid, List.map_cons] at ih ⊢
      rw [if_neg (by simp [hj])]
      rw [getJob_cons, getJob_cons]
      by_cases hu : j.uid = u
      · rw [if_pos hu, if_pos hu]
      · rw [if_neg hu, if_neg hu]
        exact ih

/-- After renaming away, the old uid no longer resolves. -/
theorem getJob_renameUid_old (s : List Job) (oldU newU : String)
    (h : oldU ≠ newU) : getJob (renameUid s oldU newU) oldU = none := by
  induction s with
  | nil => rfl
  | cons j t ih =>
    simp only [renameUid, List.map_cons] at ih ⊢
    by_cases hj : j.uid = oldU
    · rw [if_pos (by simp [hj]), getJob_cons,
        if_neg (show ¬ (({ j with uid := newU } : Job).uid = oldU) from
          fun he => h he.symm)]
      exact ih
    · rw [if_neg (by simp [hj]), getJob_cons, if_neg hj]
      exact ih

/-- When no row already carries the new uid, the new uid resolves to the
renamed row (if any). -/
theorem getJob_renameUid_new (s : List Job) (oldU newU : String) :
    (∀ j ∈ s, j.uid ≠ newU) →
    getJob (renameUid s oldU newU) newU =
      (getJob s oldU).map (fun j => { j with uid := newU }) := by
  induction s with
  | nil => intro _; rfl
  | cons j t ih =>
    intro hnew
    simp only [renameUid, List.map_cons] at ih ⊢
    by_cases hj : j.uid = oldU
    · rw [if_pos (by simp [hj]), getJob_cons,
        if_pos (show (({ j with uid := newU } : Job).uid = newU) from rfl),
        getJob_cons, if_pos hj]
      rfl
    · rw [if_neg (by simp [hj]), getJob_cons,
        if_neg (hnew j (by simp)), getJob_cons, if_neg hj]
      exact ih fun j' hj' => hnew j' (List.mem_cons_of_mem _ hj')

/-- The status update rewrites exactly the addressed row. -/
theorem getJob_updateStatus (s : List Job) (u newStatus : String) (now : Int)
    (v : String) :
    getJob (updateStatus s u newStatus now) v =
      (getJob s v).map (fun j =>
        if j.uid = u then { j with status := newStatus, updated_at := now } else j) := by
  induction s with
  | nil => rfl
  | cons j t ih =>
    simp only [updateStatus, List.map_cons] at ih ⊢
    by_cases hj : j.uid = u
    · rw [if_pos (by simp [hj])]
      by_cases hv : j.uid = v
      · rw [getJob_cons,
          if_pos (show (({ j with status := newStatus, updated_at := now } : Job).uid = v) from hv),
          getJob_cons, if_pos hv]
        simp [hj]
      · rw [getJob_cons,
          if_neg (show ¬ (({ j with status := newStatus, updated_at := now } : Job).uid = v) from hv),
          getJob_cons, if_neg hv]
        exact ih
    · rw [if_neg (by simp [hj])]
      by_cases hv : j.uid = v
      · rw [getJob_cons, if_pos hv, getJob_cons, if_pos hv]
        simp [hj]
      · rw [getJob_cons, if_neg hv, getJob_cons, if_neg hv]
        exact ih

/-- Unfolding of dictGet over a cons cell. -/
theorem dictGet_cons (p : String × JVal) (d : List (String × JVal)) (k : String) :
    dictGet (p :: d) k = if p.1 = k then some p.2 else dictGet d k := by
  by_cases h : p.1 = k <;> simp [dictGet, h]

/-- dictGet distributes over append, preferring the left dict. -/
theorem dictGet_append (d e : List (String × JVal)) (k : String) :
    dictGet (d ++ e) k = (dictGet d k).or (dictGet e k) := by
  simp only [dictGet, List.find?_append]
  cases List.find? (fun p => p.1 == k) d <;> simp [Option.or]

/-- Writing an absent key appends the binding. -/
theorem dictSet_append_of_not_mem (d : List (String × JVal)) (k : String)
    (v : JVal) (h : ∀ p ∈ d, p.1 ≠ k) : dictSet d k v = d ++ [(k, v)] := by
  rw [dictSet, if_neg]
  intro hc
  rw [List.any_eq_true] at hc
  obtain ⟨p, hp, he⟩ := hc
  exact h p hp (by simpa using he)

/-- Folding the whitelist step over flags with pairwise distinct keys that
never collide with the accumulator appends exactly the whitelisted flags. -/
theorem foldl_whitelist_eq (flags : List (String × JVal)) :
    ∀ acc : List (String × JVal),
      (∀ kv ∈ flags, kv.1 ∈ flag_map → ∀ p ∈ acc, p.1 ≠ kv.1) →
      (flags.map Prod.fst).Nodup →
      flags.foldl
          (fun acc kv => if kv.1 ∈ flag_map then dictSet acc kv.1 kv.2 else acc)
          acc
        = acc ++ flags.filter (fun p => decide (p.1 ∈ flag_map)) := by
  induction flags with
  | nil => intro acc _ _; simp
  | cons kv rest ih =>
    intro acc hacc hnodup
    have hnodup' : (rest.map Prod.fst).Nodup := by
      simpa using (List.nodup_cons.1 (by simpa using hnodup)).2
    have hhead : kv.1 ∉ rest.map Prod.fst :=
      (List.nodup_cons.1 (by simpa using hnodup)).1
    simp only [List.foldl_cons]
    by_cases hw : kv.1 ∈ flag_map
    · rw [if_pos hw,
        dictSet_append_of_not_mem acc kv.1 kv.2 (hacc kv (by simp) hw)]
      rw [ih (acc ++ [(kv.1, kv.2)]) ?_ hnodup']
      · rw [List.filter_cons, if_pos (by simpa using hw), List.append_assoc]
        rfl
      · intro kv' hkv' hw' p hp
        rcases List.mem_append.1 hp with hp | hp
        · exact hacc kv' (List.mem_cons_of_mem _ hkv') hw' p hp
        · have hpe : p = (kv.1, kv.2) := by simpa using hp
        -- p is the binding just appended, whose key differs from every
        -- later key because the keys are pairwise distinct
          rw [hpe]
          intro he
          exact hhead (he ▸ List.mem_map_of_mem Prod.fst hkv')
    · rw [if_neg hw, ih acc (fun kv' h' hw' => hacc kv' (List.mem_cons_of_mem _ h') hw')
        hnodup', List.filter_cons, if_neg (by simpa using hw)]

/-- With pairwise distinct flag keys, the payload is the three fixed header
bindings followed by exactly the whitelisted flags in order. -/
theorem buildPayload_eq (src dst : String) (flags : List (String × JVal))
    (hnodup : (flags.map Prod.fst).Nodup) :
    buildPayload src dst flags =
      [("_async", JVal.bool true), ("srcFs", JVal.str src), ("dstFs", JVal.str dst)]
        ++ flags.filter (fun p => decide (p.1 ∈ flag_map)) := by
  rw [buildPayload, foldl_whitelist_eq flags _ ?_ hnodup]
  intro kv _ hw p hp he
  have hp' : p = ("_async", JVal.bool true) ∨ p = ("srcFs", JVal.str src) ∨
      p = ("dstFs", JVal.str dst) := by simpa using hp
  rcases hp' with h | h | h <;> rw [h] at he <;> dsimp at he <;>
    rw [← he] at hw <;> exact absurd hw (by decide)

/-- Whitelisted keys read the same from the filtered dict as from the
original flags. -/
theorem dictGet_filter_whitelist (flags : List (String × JVal)) (k : String)
    (h : k ∈ flag_map) :
    dictGet (flags.filter (fun p => decide (p.1 ∈ flag_map))) k = dictGet flags k := by
  induction flags with
  | nil => rfl
  | cons kv rest ih =>
    by_cases hk : kv.1 = k
    · have hw : kv.1 ∈ flag_map := by rw [hk]; exact h
      rw [List.filter_cons, if_pos (by simpa using hw), dictGet_cons,
        dictGet_cons, if_pos hk, if_pos hk]
    · by_cases hw : kv.1 ∈ flag_map
      · rw [List.filter_cons, if_pos (by simpa using hw), dictGet_cons,
          dictGet_cons, if_neg hk, if_neg hk]
        exact ih
      · rw [List.filter_cons, if_neg (by simpa using hw), dictGet_cons, if_neg hk]
        exact ih

/-- Keys outside the whitelist are absent from the filtered dict. -/
theorem dictGet_filter_not_whitelist (flags : List (String × JVal)) (k : String)
    (h : k ∉ flag_map) :
    dictGet (flags.filter (fun p => decide (p.1 ∈ flag_map))) k = none := by
  induction flags with
  | nil => rfl
  | cons kv rest ih =>
    by_cases hw : kv.1 ∈ flag_map
    · rw [List.filter_cons, if_pos (by simpa using hw), dictGet_cons,
        if_neg (show ¬ (kv.1 = k) from fun he => h (he ▸ hw))]
      exact ih
    · rw [List.filter_cons, if_neg (by simpa using hw)]
      exact ih

/-- start_operation on an unregistered node: NodeNotFound before anything
else happens. -/
theorem start_operation_unknown_node (cfg : Config) (store : List Job)
    (net : RcCallRec → HttpResult) (kind node_id src dst : String)
    (flags : List (String × JVal)) (freshUid : String) (now : Int)
    (h : lookupNode cfg node_id = none) :
    start_operation cfg store net kind node_id src dst flags freshUid now =
      (Except.error ⟨404, "Unknown node " ++ node_id⟩, store, []) := by
  simp [start_operation, h]

/-- start_operation when the rc call succeeds: the job row is persisted and
the single call of the trace carries the built payload. -/
theorem start_operation_rc_ok (cfg : Config) (store : List Job)
    (net : RcCallRec → HttpResult) (kind node_id src dst : String)
    (flags : List (String × JVal)) (freshUid : String) (now : Int)
    (nd : Node) (rc_path : String) (resp : List (String × JVal))
    (h1 : lookupNode cfg node_id = some nd)
    (h2 : path_map kind = some rc_path)
    (h3 : rc_call nd rc_path (buildPayload src dst flags)
        (net ⟨node_id, rc_path, buildPayload src dst flags⟩) = Except.ok resp) :
    start_operation cfg store net kind node_id src dst flags freshUid now =
      (Except.ok freshUid,
        save_job ⟨freshUid, node_id, kind, src, dst, flags, dictGet resp "jobid",
          "running", 0, 0, now, now⟩ store,
        [⟨node_id, rc_path, buildPayload src dst flags⟩]) := by
  simp [start_operation, h1, h2, h3]

/-- start_operation when the rc call fails: the error propagates, the store
is untouched, and the trace still records the attempted call. -/
theorem start_operation_rc_error (cfg : Config) (store : List Job)
    (net : RcCallRec → HttpResult) (kind node_id src dst : String)
    (flags : List (String × JVal)) (freshUid : String) (now : Int)
    (nd : Node) (rc_path : String) (e : HubError)
    (h1 : lookupNode cfg node_id = some nd)
    (h2 : path_map kind = some rc_path)
    (h3 : rc_call nd rc_path (buildPayload src dst flags)
        (net ⟨node_id, rc_path, buildPayload src dst flags⟩) = Except.error e) :
    start_operation cfg store net kind node_id src dst flags freshUid now =
      (Except.error e, store, [⟨node_id, rc_path, buildPayload src dst flags⟩]) := by
  simp [start_operation, h1, h2, h3]

/-- A valid kind resolves to an rc path. -/
theorem path_map_of_valid (kind : String)
    (h : kind = "copy" ∨ kind = "move" ∨ kind = "sync") :
    (path_map kind).isSome := by
  rcases h with h | h | h <;> rw [h] <;> decide

/-- start_operation issues at most one rc call. -/
theorem start_operation_trace_len (cfg : Config) (store : List Job)
    (net : RcCallRec → HttpResult) (kind node_id src dst : String)
    (flags : List (String × JVal)) (freshUid : String) (now : Int) :
    (start_operation cfg store net kind node_id src dst flags freshUid now).2.2.length ≤ 1 := by
  unfold start_operation
  cases lookupNode cfg node_id with
  | none => simp
  | some nd =>
    cases path_map kind with
    | none => simp
    | some rc_path =>
      simp only []
      cases rc_call nd rc_path (buildPayload src dst flags)
          (net ⟨node_id, rc_path, buildPayload src dst flags⟩) with
      | error e => simp
      | ok resp => simp

/-- create_job past its validation gates, when start_operation fails: the
error, store and trace pass through unchanged. -/
theorem create_job_so_error (cfg : Config) (store : List Job)
    (net : RcCallRec → HttpResult) (kind : String)
    (node src dst : Option String) (flags : List (String × JVal))
    (idempotency_key : Option String) (freshUid : String) (now : Int)
    (e : HubError) (s1 : List Job) (tr : List RcCallRec)
    (hkind : kind = "copy" ∨ kind = "move" ∨ kind = "sync")
    (hn : truthyStr node = true) (hs : truthyStr src = true)
    (hd : truthyStr dst = true)
    (hidem : idemHit store idempotency_key = false)
    (hso : start_operation cfg store net kind (node.getD "") (src.getD "")
        (dst.getD "") flags freshUid now = (Except.error e, s1, tr)) :
    create_job cfg store net kind node src dst flags idempotency_key freshUid now =
      (Except.error e, s1, tr) := by
  rw [create_job, if_neg (not_not_intro hkind), if_neg (by simp [hn, hs, hd]),
    if_neg (by simp [hidem]), hso]

/-- create_job past its validation gates with no idempotency key, when
start_operation succeeds. -/
theorem create_job_so_ok_nokey (cfg : Config) (store : List Job)
    (net : RcCallRec → HttpResult) (kind : String)
    (node src dst : Option String) (flags : List (String × JVal))
    (freshUid : String) (now : Int)
    (uid0 : String) (s1 : List Job) (tr : List RcCallRec)
    (hkind : kind = "copy" ∨ kind = "move" ∨ kind = "sync")
    (hn : truthyStr node = true) (hs : truthyStr src = true)
    (hd : truthyStr dst = true)
    (hso : start_operation cfg store net kind (node.getD "") (src.getD "")
        (dst.getD "") flags freshUid now = (Except.ok uid0, s1, tr)) :
    create_job cfg store net kind node src dst flags none freshUid now =
      (Except.ok uid0, s1, tr) := by
  rw [create_job, if_neg (not_not_intro hkind), if_neg (by simp [hn, hs, hd]),
    if_neg (by simp [idemHit]), hso]

/-- create_job past its validation gates with a truthy idempotency key that
misses, when start_operation succeeds: the fresh row is renamed to the key
and the key is returned. -/
theorem create_job_so_ok_key (cfg : Config) (store : List Job)
    (net : RcCallRec → HttpResult) (kind : String)
    (node src dst : Option String) (flags : List (String × JVal))
    (k freshUid : String) (now : Int)
    (uid0 : String) (s1 : List Job) (tr : List RcCallRec)
    (hkind : kind = "copy" ∨ kind = "move" ∨ kind = "sync")
    (hn : truthyStr node = true) (hs : truthyStr src = true)
    (hd : truthyStr dst = true)
    (hk : k ≠ "") (hmiss : getJob store k = none)
    (hso : start_operation cfg store net kind (node.getD "") (src.getD "")
        (dst.getD "") flags freshUid now = (Except.ok uid0, s1, tr)) :
    create_job cfg store net kind node src dst flags (some k) freshUid now =
      (Except.ok k, renameUid s1 uid0 k, tr) := by
  rw [create_job, if_neg (not_not_intro hkind), if_neg (by simp [hn, hs, hd]),
    if_neg (by simp [idemHit, hk, hmiss]), hso]
  simp [hk]

/-- create_job on a truthy idempotency key that matches an existing row:
the stored uid comes back, nothing changes, no call is made. -/
theorem create_job_idem_hit (cfg : Config) (store : List Job)
    (net : RcCallRec → HttpResult) (kind : String)
    (node src dst : Option String) (flags : List (String × JVal))
    (k freshUid : String) (now : Int)
    (hkind : kind = "copy" ∨ kind = "move" ∨ kind = "sync")
    (hn : truthyStr node = true) (hs : truthyStr src = true)
    (hd : truthyStr dst = true)
    (hk : k ≠ "") (hj : (getJob store k).isSome) :
    create_job cfg store net kind node src dst flags (some k) freshUid now =
      (Except.ok k, store, []) := by
  rw [create_job, if_neg (not_not_intro hkind), if_neg (by simp [hn, hs, hd]),
    if_pos (by simp [idemHit, hk, hj])]
  rfl

/-- getJob over a singleton store. -/
theorem getJob_singleton (j : Job) (u : String) :
    getJob [j] u = if j.uid = u then some j else none := by
  rw [getJob_cons]
  rfl

/-- Inversion of a successful start_operation: the returned uid is the
fresh one, the registry lookup and the path mapping succeeded, the single
traced call carried the built payload and came back ok, and the store
gained exactly the new running row. -/
theorem start_operation_ok_inv (cfg : Config) (store : List Job)
    (net : RcCallRec → HttpResult) (kind node_id src dst : String)
    (flags : List (String × JVal)) (freshUid : String) (now : Int)
    (uid0 : String) (s1 : List Job) (tr : List RcCallRec)
    (hso : start_operation cfg store net kind node_id src dst flags freshUid now =
      (Except.ok uid0, s1, tr)) :
    uid0 = freshUid ∧ ∃ nd rc_path resp,
      lookupNode cfg node_id = some nd ∧ path_map kind = some rc_path ∧
      rc_call nd rc_path (buildPayload src dst flags)
          (net ⟨node_id, rc_path, buildPayload src dst flags⟩) = Except.ok resp ∧
      s1 = save_job ⟨freshUid, node_id, kind, src, dst, flags,
        dictGet resp "jobid", "running", 0, 0, now, now⟩ store ∧
      tr = [⟨node_id, rc_path, buildPayload src dst flags⟩] := by
  unfold start_operation at hso
  cases hl : lookupNode cfg node_id with
  | none => rw [hl] at hso; simp at hso
  | some nd =>
    rw [hl] at hso
    cases hp : path_map kind with
    | none => simp only [hp] at hso; simp at hso
    | some rc_path =>
      simp only [hp] at hso
      cases hc : rc_call nd rc_path (buildPayload src dst flags)
          (net ⟨node_id, rc_path, buildPayload src dst flags⟩) with
      | error e => simp only [hc] at hso; simp at hso
      | ok resp =>
        simp only [hc] at hso
        simp only [Prod.mk.injEq, Except.ok.injEq] at hso
        obtain ⟨h1, h2, h3⟩ := hso
        exact ⟨h1.symm, nd, rc_path, resp, rfl, rfl, hc, h2.symm, h3.symm⟩

/-- Claim C1: for a well-formed submission carrying a truthy idempotency
key, (1) when a job row with uid equal to the key already exists the stored
id comes straight back, the store is untouched and no gateway call is made,
and (2) after any successful submission under that key a second submission
with the same key returns the same id with no gateway call, so across the
two sequential submissions the gateway is invoked at most once for the
key. -/
theorem create_job_idempotency (cfg : Config) (store : List Job)
    (net1 net2 : RcCallRec → HttpResult) (kind : String)
    (node src dst : Option String) (flags : List (String × JVal))
    (k freshUid1 freshUid2 : String) (now1 now2 : Int)
    (hkind : kind = "copy" ∨ kind = "move" ∨ kind = "sync")
    (hn : truthyStr node = true) (hs : truthyStr src = true)
    (hd : truthyStr dst = true) (hk : k ≠ "") :
    (∀ j, getJob store k = some j →
      create_job cfg store net1 kind node src dst flags (some k) freshUid1 now1 =
        (Except.ok k, store, [])) ∧
    (∀ u1 s1 tr1, getJob store freshUid1 = none →
      create_job cfg store net1 kind node src dst flags (some k) freshUid1 now1 =
        (Except.ok u1, s1, tr1) →
      u1 = k ∧ tr1.length ≤ 1 ∧
      create_job cfg s1 net2 kind node src dst flags (some k) freshUid2 now2 =
        (Except.ok k, s1, [])) := by
  constructor
  · intro j hj
    exact create_job_idem_hit cfg store net1 kind node src dst flags k freshUid1
      now1 hkind hn hs hd hk (by rw [hj]; rfl)
  · intro u1 s1 tr1 hfresh hok
    by_cases hhit : (getJob store k).isSome
    · rw [create_job_idem_hit cfg store net1 kind node src dst flags k freshUid1
        now1 hkind hn hs hd hk hhit] at hok
      simp only [Prod.mk.injEq, Except.ok.injEq] at hok
      obtain ⟨hu, hstore, htr⟩ := hok
      subst hu; subst hstore; subst htr
      exact ⟨rfl, by simp,
        create_job_idem_hit cfg store net2 kind node src dst flags k freshUid2
          now2 hkind hn hs hd hk hhit⟩
    · have hmiss : getJob store k = none := by
        cases hg : getJob store k
        · rfl
        · rw [hg] at hhit; simp at hhit
      rcases hso : start_operation cfg store net1 kind (node.getD "")
          (src.getD "") (dst.getD "") flags freshUid1 now1 with ⟨r, s1', tr'⟩
      cases r with
      | error e =>
        rw [create_job_so_error cfg store net1 kind node src dst flags (some k)
          freshUid1 now1 e s1' tr' hkind hn hs hd
          (by simp [idemHit, hk, hmiss]) hso] at hok
        simp at hok
      | ok uid0 =>
        rw [create_job_so_ok_key cfg store net1 kind node src dst flags k
          freshUid1 now1 uid0 s1' tr' hkind hn hs hd hk hmiss hso] at hok
        simp only [Prod.mk.injEq, Except.ok.injEq] at hok
        obtain ⟨hu, hs1, htr⟩ := hok
        obtain ⟨huid, nd, rc_path, resp, hl, hp, hc, hsave, htrace⟩ :=
          start_operation_ok_inv cfg store net1 kind (node.getD "")
            (src.getD "") (dst.getD "") flags freshUid1 now1 uid0 s1' tr' hso
        rw [huid] at hs1
        have hs1' : s1' = store ++ [⟨freshUid1, node.getD "", kind, src.getD "",
            dst.getD "", flags, dictGet resp "jobid", "running", 0, 0, now1,
            now1⟩] := by
          rw [hsave, save_job_fresh]
          exact hfresh
        have hksome : (getJob s1 k).isSome := by
          rw [← hs1]
          by_cases hfk : freshUid1 = k
          · rw [← hfk, renameUid_same, hs1', getJob_append, hfresh,
              getJob_singleton]
            simp
          · have hnew : ∀ j' ∈ s1', j'.uid ≠ k := by
              intro j' hj'
              rw [hs1'] at hj'
              rcases List.mem_append.1 hj' with hj' | hj'
              · exact (getJob_eq_none_iff store k).1 hmiss j' hj'
              · have he : j' = ⟨freshUid1, node.getD "", kind, src.getD "",
                    dst.getD "", flags, dictGet resp "jobid", "running", 0, 0,
                    now1, now1⟩ := by simpa using hj'
                rw [he]
                exact hfk
            rw [getJob_renameUid_new s1' freshUid1 k hnew, hs1', getJob_append,
              hfresh, getJob_singleton]
            simp
        refine ⟨hu.symm, ?_, ?_⟩
        · rw [← htr, htrace]
          simp
        · exact create_job_idem_hit cfg s1 net2 kind node src dst flags k
            freshUid2 now2 hkind hn hs hd hk hksome

/-- Claim C6: for every Gateway invocation, a transport-level failure is
reported as a 502 error whose message names the offending node; the call
errors with a message carrying the HTTP status code and the raw body exactly
when the agent answers with a status other than 200 (the success status of
the rc protocol); and on status 200 the decoded JSON response is returned
unchanged (one HttpResult is consumed per invocation, so no retry occurs). -/
theorem rc_call_error_semantics (node : Node) (path : String)
    (payload : List (String × JVal)) :
    (∀ msg, rc_call node path payload (HttpResult.transportError msg) =
      Except.error ⟨502, "Error contacting " ++ node.id ++ ": " ++ msg⟩) ∧
    (∀ code body js, code ≠ 200 →
      rc_call node path payload (HttpResult.response code body js) =
        Except.error ⟨502, "rc error " ++ toString code ++ ": " ++ body⟩) ∧
    (∀ body js, rc_call node path payload (HttpResult.response 200 body js) =
      Except.ok js) ∧
    (∀ code body js e,
      rc_call node path payload (HttpResult.response code body js) =
        Except.error e → code ≠ 200) := by
  refine ⟨fun msg => rfl, fun code body js h => ?_, fun body js => ?_, ?_⟩
  · simp [rc_call, h]
  · simp [rc_call]
  · intro code body js e h hcode
    subst hcode
    simp [rc_call] at h

/-- Concrete witness for rc_call_error_semantics: a node with id nodeA, a
transport failure, a 500 response and a 200 response, each behaving as the
theorem states. -/
theorem rc_call_error_semantics_witness :
    (rc_call ⟨"A", "Node A", "10.0.0.1", 5572⟩ "core/stats" []
        (HttpResult.transportError "connection refused") =
      Except.error ⟨502, "Error contacting A: connection refused"⟩) ∧
    (rc_call ⟨"A", "Node A", "10.0.0.1", 5572⟩ "core/stats" []
        (HttpResult.response 500 "boom" []) =
      Except.error ⟨502, "rc error 500: boom"⟩) ∧
    (rc_call ⟨"A", "Node A", "10.0.0.1", 5572⟩ "core/stats" []
        (HttpResult.response 200 "" [("ok", JVal.bool true)]) =
      Except.ok [("ok", JVal.bool true)]) := by
  refine ⟨?_, ?_, ?_⟩
  · exact (rc_call_error_semantics ⟨"A", "Node A", "10.0.0.1", 5572⟩ "core/stats" []).1
      "connection refused"
  · exact (rc_call_error_semantics ⟨"A", "Node A", "10.0.0.1", 5572⟩ "core/stats" []).2.1
      500 "boom" [] (by decide)
  · exact (rc_call_error_semantics ⟨"A", "Node A", "10.0.0.1", 5572⟩ "core/stats" []).2.2.1
      "" [("ok", JVal.bool true)]

/-- Witness for create_job_idempotency: on the one-node registry, submitting
a copy under key K creates row K; resubmitting under K returns K again with
no gateway call. -/
theorem create_job_idempotency_witness :
    "K" = "K" ∧ ([callCopyAB] : List RcCallRec).length ≤ 1 ∧
    create_job cfgA [jobK] netJob42 "copy" (some "A") (some "s:a")
        (some "d:b") [] (some "K") "u2" 7 = (Except.ok "K", [jobK], []) :=
  (create_job_idempotency cfgA [] netJob42 netJob42 "copy" (some "A")
      (some "s:a") (some "d:b") [] "K" "u1" "u2" 3 7 (Or.inl rfl) (by decide)
      (by decide) (by decide) (by decide)).2 "K" [jobK] [callCopyAB]
    (by decide) (by decide)

/-- A truthy idempotency key that misses leaves no trace in the hit test. -/
theorem idemHit_false_miss {store : List Job} {k : String} (hk : k ≠ "")
    (h : idemHit store (some k) = false) : getJob store k = none := by
  cases hg : getJob store k with
  | none => rfl
  | some j =>
    exfalso
    rw [idemHit, hg] at h
    simp [hk] at h

/-- Claim C4: a submission that passes the kind and field validation and is
not short-circuited by the idempotency key, naming a node id absent from
the registry, fails with the 404 NodeNotFound error, makes no gateway call,
and leaves the job store unchanged. -/
theorem create_job_unknown_node (cfg : Config) (store : List Job)
    (net : RcCallRec → HttpResult) (kind : String)
    (node src dst : Option String) (flags : List (String × JVal))
    (idempotency_key : Option String) (freshUid : String) (now : Int)
    (hkind : kind = "copy" ∨ kind = "move" ∨ kind = "sync")
    (hn : truthyStr node = true) (hs : truthyStr src = true)
    (hd : truthyStr dst = true)
    (hidem : idemHit store idempotency_key = false)
    (hnode : lookupNode cfg (node.getD "") = none) :
    create_job cfg store net kind node src dst flags idempotency_key freshUid now =
      (Except.error ⟨404, "Unknown node " ++ node.getD ""⟩, store, []) :=
  create_job_so_error cfg store net kind node src dst flags idempotency_key
    freshUid now _ store [] hkind hn hs hd hidem
    (start_operation_unknown_node cfg store net kind (node.getD "")
      (src.getD "") (dst.getD "") flags freshUid now hnode)

/-- Witness for create_job_unknown_node: submitting to node B on the
one-node registry fails 404 with an empty trace and unchanged store. -/
theorem create_job_unknown_node_witness :
    create_job cfgA [] netJob42 "copy" (some "B") (some "s:a") (some "d:b")
        [] none "u1" 0 =
      (Except.error ⟨404, "Unknown node B"⟩, [], []) :=
  create_job_unknown_node cfgA [] netJob42 "copy" (some "B") (some "s:a")
    (some "d:b") [] none "u1" 0 (Or.inl rfl) (by decide) (by decide)
    (by decide) (by decide) (by decide)

/-- create_job past its validation gates with an empty-string idempotency
key behaves as if no key were supplied (Python truthiness). -/
theorem create_job_so_ok_key_empty (cfg : Config) (store : List Job)
    (net : RcCallRec → HttpResult) (kind : String)
    (node src dst : Option String) (flags : List (String × JVal))
    (freshUid : String) (now : Int)
    (uid0 : String) (s1 : List Job) (tr : List RcCallRec)
    (hkind : kind = "copy" ∨ kind = "move" ∨ kind = "sync")
    (hn : truthyStr node = true) (hs : truthyStr src = true)
    (hd : truthyStr dst = true)
    (hso : start_operation cfg store net kind (node.getD "") (src.getD "")
        (dst.getD "") flags freshUid now = (Except.ok uid0, s1, tr)) :
    create_job cfg store net kind node src dst flags (some "") freshUid now =
      (Except.ok uid0, s1, tr) := by
  rw [create_job, if_neg (not_not_intro hkind), if_neg (by simp [hn, hs, hd]),
    if_neg (by simp [idemHit]), hso]
  simp

/-- Under valid gates with a resolvable node, create_job always records
exactly the one rc call with the built payload, whatever the network
answers and whatever the idempotency key is (provided it missed). -/
theorem create_job_trace_call (cfg : Config) (store : List Job)
    (net : RcCallRec → HttpResult) (kind : String)
    (node src dst : Option String) (flags : List (String × JVal))
    (idempotency_key : Option String) (freshUid : String) (now : Int)
    (nd : Node) (rc_path : String)
    (hkind : kind = "copy" ∨ kind = "move" ∨ kind = "sync")
    (hn : truthyStr node = true) (hs : truthyStr src = true)
    (hd : truthyStr dst = true)
    (hidem : idemHit store idempotency_key = false)
    (hl : lookupNode cfg (node.getD "") = some nd)
    (hp : path_map kind = some rc_path) :
    (create_job cfg store net kind node src dst flags idempotency_key freshUid now).2.2 =
      [⟨node.getD "", rc_path, buildPayload (src.getD "") (dst.getD "") flags⟩] := by
  cases hc : rc_call nd rc_path (buildPayload (src.getD "") (dst.getD "") flags)
      (net ⟨node.getD "", rc_path, buildPayload (src.getD "") (dst.getD "") flags⟩) with
  | error e =>
    rw [create_job_so_error cfg store net kind node src dst flags
      idempotency_key freshUid now e store _ hkind hn hs hd hidem
      (start_operation_rc_error cfg store net kind (node.getD "") (src.getD "")
        (dst.getD "") flags freshUid now nd rc_path e hl hp hc)]
  | ok resp =>
    have hso := start_operation_rc_ok cfg store net kind (node.getD "")
      (src.getD "") (dst.getD "") flags freshUid now nd rc_path resp hl hp hc
    cases idempotency_key with
    | none =>
      rw [create_job_so_ok_nokey cfg store net kind node src dst flags freshUid
        now freshUid _ _ hkind hn hs hd hso]
    | some k =>
      by_cases hk : k = ""
      · subst hk
        rw [create_job_so_ok_key_empty cfg store net kind node src dst flags
          freshUid now freshUid _ _ hkind hn hs hd hso]
      · rw [create_job_so_ok_key cfg store net kind node src dst flags k
          freshUid now freshUid _ _ hkind hn hs hd hk
          (idemHit_false_miss hk hidem) hso]

/-- Claim C9 (implicit): when the gateway call of a well-formed submission
fails — transport error or non-200 status — the error propagates, the job
store comes back unchanged (so a supplied idempotency key stays unclaimed),
and a later retry of the same submission reaches the gateway again. -/
theorem create_job_gateway_failure_no_persist (cfg : Config) (store : List Job)
    (net : RcCallRec → HttpResult) (kind : String)
    (node src dst : Option String) (flags : List (String × JVal))
    (idempotency_key : Option String) (freshUid : String) (now : Int)
    (nd : Node) (rc_path : String) (e : HubError)
    (hkind : kind = "copy" ∨ kind = "move" ∨ kind = "sync")
    (hn : truthyStr node = true) (hs : truthyStr src = true)
    (hd : truthyStr dst = true)
    (hidem : idemHit store idempotency_key = false)
    (hl : lookupNode cfg (node.getD "") = some nd)
    (hp : path_map kind = some rc_path)
    (herr : rc_call nd rc_path (buildPayload (src.getD "") (dst.getD "") flags)
        (net ⟨node.getD "", rc_path, buildPayload (src.getD "") (dst.getD "") flags⟩) =
      Except.error e) :
    create_job cfg store net kind node src dst flags idempotency_key freshUid now =
      (Except.error e, store,
        [⟨node.getD "", rc_path, buildPayload (src.getD "") (dst.getD "") flags⟩]) ∧
    ∀ net2 : RcCallRec → HttpResult, ∀ freshUid2 : String, ∀ now2 : Int,
      (create_job cfg store net2 kind node src dst flags idempotency_key
        freshUid2 now2).2.2 =
      [⟨node.getD "", rc_path, buildPayload (src.getD "") (dst.getD "") flags⟩] := by
  constructor
  · exact create_job_so_error cfg store net kind node src dst flags
      idempotency_key freshUid now e store _ hkind hn hs hd hidem
      (start_operation_rc_error cfg store net kind (node.getD "") (src.getD "")
        (dst.getD "") flags freshUid now nd rc_path e hl hp herr)
  · intro net2 freshUid2 now2
    exact create_job_trace_call cfg store net2 kind node src dst flags
      idempotency_key freshUid2 now2 nd rc_path hkind hn hs hd hidem hl hp

/-- Witness for create_job_gateway_failure_no_persist: a transport failure
surfaces as the 502 error, the store stays empty, and a retry against a
working network reaches the gateway. -/
theorem create_job_gateway_failure_witness :
    (create_job cfgA [] netDown "copy" (some "A") (some "s:a") (some "d:b")
        [] (some "K") "u1" 3 =
      (Except.error ⟨502, "Error contacting A: connection refused"⟩, [],
        [callCopyAB])) ∧
    (create_job cfgA [] netJob42 "copy" (some "A") (some "s:a") (some "d:b")
        [] (some "K") "u2" 7).2.2 = [callCopyAB] := by
  have h := create_job_gateway_failure_no_persist cfgA [] netDown "copy"
    (some "A") (some "s:a") (some "d:b") [] (some "K") "u1" 3 nodeA
    "operations/copyfs" ⟨502, "Error contacting A: connection refused"⟩
    (Or.inl rfl) (by decide) (by decide) (by decide) (by decide) (by decide)
    (by decide) (by decide)
  exact ⟨h.1, h.2 netJob42 "u2" 7⟩

/-- Claim C5: stop on a stored running job whose node resolves and whose
remote stop call succeeds transitions the row to stopped with a fresh
updated_at and reports stopped true; stop on a stored job that is not
running reports stopped false with the explanatory message, raises nothing
and changes nothing; stop on an unknown uid fails 404 JobNotFound. -/
theorem stop_job_semantics (cfg : Config) (store : List Job)
    (net : RcCallRec → HttpResult) (u : String) (now : Int) :
    (∀ j nd resp, getJob store u = some j → j.status = "running" →
      lookupNode cfg j.node = some nd →
      rc_call nd "job/stop" [("jobid", j.rc_jobid.getD JVal.null)]
          (net ⟨j.node, "job/stop", [("jobid", j.rc_jobid.getD JVal.null)]⟩) =
        Except.ok resp →
      stop_job cfg store net u now =
        (Except.ok ⟨u, true, none⟩, updateStatus store u "stopped" now,
          [⟨j.node, "job/stop", [("jobid", j.rc_jobid.getD JVal.null)]⟩]) ∧
      getJob (updateStatus store u "stopped" now) u =
        some { j with status := "stopped", updated_at := now }) ∧
    (∀ j, getJob store u = some j → j.status ≠ "running" →
      stop_job cfg store net u now =
        (Except.ok ⟨u, false,
          some ("Job status is " ++ j.status ++ ", nothing to stop")⟩,
          store, [])) ∧
    (getJob store u = none →
      stop_job cfg store net u now =
        (Except.error ⟨404, "Job not found"⟩, store, [])) := by
  refine ⟨?_, ?_, ?_⟩
  · intro j nd resp hjob hrun hl hok
    constructor
    · simp [stop_job, hjob, hrun, hl, hok]
    · rw [getJob_updateStatus, hjob]
      simp [getJob_some_uid hjob]
  · intro j hjob hnotrun
    simp only [stop_job, hjob]
    rw [if_pos hnotrun]
  · intro hnone
    simp [stop_job, hnone]

/-- Witness for stop_job_semantics: stopping the running sample job
transitions it to stopped at time 9; stopping it again reports stopped
false; stopping an unknown uid fails 404. -/
theorem stop_job_semantics_witness :
    (stop_job cfgA [jobRun] netJob42 "J" 9 =
      (Except.ok ⟨"J", true, none⟩, [jobStopped], [stopCallJ]) ∧
     getJob (updateStatus [jobRun] "J" "stopped" 9) "J" = some jobStopped) ∧
    (stop_job cfgA [jobStopped] netJob42 "J" 11 =
      (Except.ok ⟨"J", false, some "Job status is stopped, nothing to stop"⟩,
        [jobStopped], [])) ∧
    (stop_job cfgA [] netJob42 "nope" 0 =
      (Except.error ⟨404, "Job not found"⟩, [], [])) := by
  refine ⟨?_, ?_, ?_⟩
  · exact (stop_job_semantics cfgA [jobRun] netJob42 "J" 9).1 jobRun nodeA
      [("jobid", JVal.num 42)] (by decide) (by decide) (by decide) (by decide)
  · exact (stop_job_semantics cfgA [jobStopped] netJob42 "J" 11).2.1 jobStopped
      (by decide) (by decide)
  · exact (stop_job_semantics cfgA [] netJob42 "nope" 0).2.2 (by decide)

/-- Claim C10 (implicit): when the remote stop call of a stored running job
fails, the error propagates to the caller and the store comes back
unchanged — the row keeps status running and its old updated_at. -/
theorem stop_job_gateway_failure_state_unchanged (cfg : Config)
    (store : List Job) (net : RcCallRec → HttpResult) (u : String) (now : Int)
    (j : Job) (nd : Node) (e : HubError)
    (hjob : getJob store u = some j) (hrun : j.status = "running")
    (hl : lookupNode cfg j.node = some nd)
    (herr : rc_call nd "job/stop" [("jobid", j.rc_jobid.getD JVal.null)]
        (net ⟨j.node, "job/stop", [("jobid", j.rc_jobid.getD JVal.null)]⟩) =
      Except.error e) :
    stop_job cfg store net u now =
      (Except.error e, store,
        [⟨j.node, "job/stop", [("jobid", j.rc_jobid.getD JVal.null)]⟩]) := by
  simp [stop_job, hjob, hrun, hl, herr]

/-- Witness for stop_job_gateway_failure_state_unchanged: with the network
down, stopping the running sample job surfaces the 502 and leaves the row
untouched. -/
theorem stop_job_gateway_failure_witness :
    stop_job cfgA [jobRun] netDown "J" 9 =
      (Except.error ⟨502, "Error contacting A: connection refused"⟩, [jobRun],
        [stopCallJ]) :=
  stop_job_gateway_failure_state_unchanged cfgA [jobRun] netDown "J" 9 jobRun
    nodeA ⟨502, "Error contacting A: connection refused"⟩ (by decide)
    (by decide) (by decide) (by decide)

/-- Claim C3: under valid gates with a resolvable node and dict-like flags
(pairwise distinct names), the one payload sent to the gateway holds the
async marker, the source and destination bindings, exactly the
caller-supplied entries whose names are whitelisted, and nothing else: any
name outside the whitelist (other than the three fixed bindings) is absent
from the payload. -/
theorem create_job_payload_whitelist (cfg : Config) (store : List Job)
    (net : RcCallRec → HttpResult) (kind : String)
    (node src dst : Option String) (flags : List (String × JVal))
    (idempotency_key : Option String) (freshUid : String) (now : Int)
    (nd : Node) (rc_path : String)
    (hkind : kind = "copy" ∨ kind = "move" ∨ kind = "sync")
    (hn : truthyStr node = true) (hs : truthyStr src = true)
    (hd : truthyStr dst = true)
    (hidem : idemHit store idempotency_key = false)
    (hl : lookupNode cfg (node.getD "") = some nd)
    (hp : path_map kind = some rc_path)
    (hnodup : (flags.map Prod.fst).Nodup) :
    (create_job cfg store net kind node src dst flags idempotency_key freshUid
        now).2.2 =
      [⟨node.getD "", rc_path, buildPayload (src.getD "") (dst.getD "") flags⟩] ∧
    dictGet (buildPayload (src.getD "") (dst.getD "") flags) "_async" =
      some (JVal.bool true) ∧
    dictGet (buildPayload (src.getD "") (dst.getD "") flags) "srcFs" =
      some (JVal.str (src.getD "")) ∧
    dictGet (buildPayload (src.getD "") (dst.getD "") flags) "dstFs" =
      some (JVal.str (dst.getD "")) ∧
    (∀ name, name ∈ flag_map →
      dictGet (buildPayload (src.getD "") (dst.getD "") flags) name =
        dictGet flags name) ∧
    (∀ name, name ∉ flag_map → name ≠ "_async" → name ≠ "srcFs" →
      name ≠ "dstFs" →
      dictGet (buildPayload (src.getD "") (dst.getD "") flags) name = none) := by
  refine ⟨create_job_trace_call cfg store net kind node src dst flags
    idempotency_key freshUid now nd rc_path hkind hn hs hd hidem hl hp,
    ?_, ?_, ?_, ?_, ?_⟩
  · rw [buildPayload_eq _ _ _ hnodup, dictGet_append]
    simp [dictGet_cons, Option.or]
  · rw [buildPayload_eq _ _ _ hnodup, dictGet_append]
    simp [dictGet_cons, Option.or]
  · rw [buildPayload_eq _ _ _ hnodup, dictGet_append]
    simp [dictGet_cons, Option.or]
  · intro name hname
    have h1 : ("_async" : String) ≠ name :=
      fun he => absurd (he ▸ hname) (by decide)
    have h2 : ("srcFs" : String) ≠ name :=
      fun he => absurd (he ▸ hname) (by decide)
    have h3 : ("dstFs" : String) ≠ name :=
      fun he => absurd (he ▸ hname) (by decide)
    rw [buildPayload_eq _ _ _ hnodup, dictGet_append, dictGet_cons, if_neg h1,
      dictGet_cons, if_neg h2, dictGet_cons, if_neg h3,
      dictGet_filter_whitelist flags name hname]
    cases dictGet flags name <;> simp [dictGet, Option.or]
  · intro name hname h1 h2 h3
    rw [buildPayload_eq _ _ _ hnodup, dictGet_append, dictGet_cons,
      if_neg (fun he => h1 he.symm), dictGet_cons,
      if_neg (fun he => h2 he.symm), dictGet_cons,
      if_neg (fun he => h3 he.symm),
      dictGet_filter_not_whitelist flags name hname]
    simp [dictGet, Option.or]

/-- Witness for create_job_payload_whitelist: with one whitelisted and one
unknown flag, the traced payload keeps checksum and drops notAFlag. -/
theorem create_job_payload_whitelist_witness :
    (create_job cfgA [] netJob42 "copy" (some "A") (some "s:a") (some "d:b")
        cexFlags none "u1" 3).2.2 =
      [⟨"A", "operations/copyfs", buildPayload "s:a" "d:b" cexFlags⟩] ∧
    dictGet (buildPayload "s:a" "d:b" cexFlags) "checksum" =
      some (JVal.bool true) ∧
    dictGet (buildPayload "s:a" "d:b" cexFlags) "notAFlag" = none := by
  have h := create_job_payload_whitelist cfgA [] netJob42 "copy" (some "A")
    (some "s:a") (some "d:b") cexFlags none "u1" 3 nodeA "operations/copyfs"
    (Or.inl rfl) (by decide) (by decide) (by decide) (by decide) (by decide)
    (by decide) (by decide)
  refine ⟨h.1, ?_, ?_⟩
  · exact (h.2.2.2.2.1 "checksum" (by decide)).trans (by decide)
  · exact h.2.2.2.2.2 "notAFlag" (by decide) (by decide) (by decide) (by decide)

/-- Counterexample to claim C2 as stated: submitting with a flag outside the
whitelist succeeds, yet the queried record returns the caller flag
dictionary unfiltered — the non-whitelisted name notAFlag is still present
in the reported flags even though it never reached the gateway payload — so
the queried flags are not the whitelist-filtered subset. -/
theorem create_job_flags_unfiltered_cex :
    create_job cfgA [] netJob42 "copy" (some "A") (some "s:a") (some "d:b")
        cexFlags none "u1" 3 =
      (Except.ok "u1", [jobCex], [cexCall]) ∧
    job_status [jobCex] "u1" = Except.ok cexView ∧
    cexView.status = "running" ∧
    dictGet cexView.flags "notAFlag" = some (JVal.bool true) ∧
    "notAFlag" ∉ flag_map ∧
    dictGet (buildPayload "s:a" "d:b" cexFlags) "notAFlag" = none := by
  refine ⟨by decide, by decide, by decide, by decide, by decide, by decide⟩

/-- After appending the fresh row and renaming it to the idempotency key,
the key resolves to a row sharing every column of the fresh row except the
uid. -/
theorem getJob_after_rename_fresh (store : List Job) (rec : Job) (k : String)
    (hmiss : getJob store k = none) (hfresh : getJob store rec.uid = none) :
    ∃ v, getJob (renameUid (store ++ [rec]) rec.uid k) k = some v ∧
      v.status = rec.status ∧ v.kind = rec.kind ∧ v.src = rec.src ∧
      v.dst = rec.dst ∧ v.flags = rec.flags ∧ v.created_at = rec.created_at ∧
      v.updated_at = rec.updated_at := by
  by_cases hfk : rec.uid = k
  · rw [← hfk, renameUid_same, getJob_append, hfresh, getJob_singleton]
    exact ⟨rec, by simp, rfl, rfl, rfl, rfl, rfl, rfl, rfl⟩
  · have hnew : ∀ j' ∈ store ++ [rec], j'.uid ≠ k := by
      intro j' hj'
      rcases List.mem_append.1 hj' with hj' | hj'
      · exact (getJob_eq_none_iff store k).1 hmiss j' hj'
      · have he : j' = rec := by simpa using hj'
        rw [he]
        exact hfk
    rw [getJob_renameUid_new _ _ _ hnew, getJob_append, hfresh,
      getJob_singleton]
    exact ⟨{ rec with uid := k }, by simp, rfl, rfl, rfl, rfl, rfl, rfl, rfl⟩

/-- Claim C2 (amended): for every well-formed submission that is not
short-circuited by the idempotency key and whose gateway call succeeds,
querying the returned job id immediately afterwards yields a record with
status running, the submitted kind, src and dst, both timestamps at the
submission time, and the flags exactly as submitted — unfiltered; only the
gateway payload is whitelist-filtered (claim C3). -/
theorem create_job_then_status (cfg : Config) (store : List Job)
    (net : RcCallRec → HttpResult) (kind : String)
    (node src dst : Option String) (flags : List (String × JVal))
    (idempotency_key : Option String) (freshUid : String) (now : Int)
    (u : String) (s1 : List Job) (tr : List RcCallRec)
    (hkind : kind = "copy" ∨ kind = "move" ∨ kind = "sync")
    (hn : truthyStr node = true) (hs : truthyStr src = true)
    (hd : truthyStr dst = true)
    (hidem : idemHit store idempotency_key = false)
    (hfresh : getJob store freshUid = none)
    (hok : create_job cfg store net kind node src dst flags idempotency_key
        freshUid now = (Except.ok u, s1, tr)) :
    ∃ v, job_status s1 u = Except.ok v ∧ v.status = "running" ∧
      v.kind = kind ∧ v.src = src.getD "" ∧ v.dst = dst.getD "" ∧
      v.flags = flags ∧ v.createdAt = now ∧ v.updatedAt = now := by
  rcases hso : start_operation cfg store net kind (node.getD "") (src.getD "")
      (dst.getD "") flags freshUid now with ⟨r, s1', tr'⟩
  cases r with
  | error e =>
    rw [create_job_so_error cfg store net kind node src dst flags
      idempotency_key freshUid now e s1' tr' hkind hn hs hd hidem hso] at hok
    simp at hok
  | ok uid0 =>
    obtain ⟨huid, nd, rc_path, resp, hl, hp, hc, hsave, htrace⟩ :=
      start_operation_ok_inv cfg store net kind (node.getD "") (src.getD "")
        (dst.getD "") flags freshUid now uid0 s1' tr' hso
    have hs1' : s1' = store ++ [⟨freshUid, node.getD "", kind, src.getD "",
        dst.getD "", flags, dictGet resp "jobid", "running", 0, 0, now,
        now⟩] := by
      rw [hsave, save_job_fresh]
      exact hfresh
    cases idempotency_key with
    | none =>
      rw [create_job_so_ok_nokey cfg store net kind node src dst flags freshUid
        now uid0 s1' tr' hkind hn hs hd hso] at hok
      simp only [Prod.mk.injEq, Except.ok.injEq] at hok
      obtain ⟨hu, hsx, htrx⟩ := hok
      have hget : getJob s1 u = some ⟨freshUid, node.getD "", kind,
          src.getD "", dst.getD "", flags, dictGet resp "jobid", "running", 0,
          0, now, now⟩ := by
        rw [← hsx, ← hu, huid, hs1', getJob_append, hfresh, getJob_singleton]
        simp
      exact ⟨⟨freshUid, node.getD "", kind, src.getD "", dst.getD "", flags,
        dictGet resp "jobid", "running", 0, 0, now, now⟩,
        by simp [job_status, hget], rfl, rfl, rfl, rfl, rfl, rfl, rfl⟩
    | some k =>
      by_cases hk : k = ""
      · subst hk
        rw [create_job_so_ok_key_empty cfg store net kind node src dst flags
          freshUid now uid0 s1' tr' hkind hn hs hd hso] at hok
        simp only [Prod.mk.injEq, Except.ok.injEq] at hok
        obtain ⟨hu, hsx, htrx⟩ := hok
        have hget : getJob s1 u = some ⟨freshUid, node.getD "", kind,
            src.getD "", dst.getD "", flags, dictGet resp "jobid", "running",
            0, 0, now, now⟩ := by
          rw [← hsx, ← hu, huid, hs1', getJob_append, hfresh, getJob_singleton]
          simp
        exact ⟨⟨freshUid, node.getD "", kind, src.getD "", dst.getD "",
          flags, dictGet resp "jobid", "running", 0, 0, now, now⟩,
          by simp [job_status, hget], rfl, rfl, rfl, rfl, rfl, rfl, rfl⟩
      · have hmiss := idemHit_false_miss hk hidem
        rw [create_job_so_ok_key cfg store net kind node src dst flags k
          freshUid now uid0 s1' tr' hkind hn hs hd hk hmiss hso] at hok
        simp only [Prod.mk.injEq, Except.ok.injEq] at hok
        obtain ⟨hu, hsx, htrx⟩ := hok
        obtain ⟨v, hv, h1, h2, h3, h4, h5, h6, h7⟩ :=
          getJob_after_rename_fresh store ⟨freshUid, node.getD "", kind,
            src.getD "", dst.getD "", flags, dictGet resp "jobid", "running",
            0, 0, now, now⟩ k hmiss hfresh
        have hget : getJob s1 u = some v := by
          rw [← hsx, ← hu, huid, hs1']
          exact hv
        exact ⟨⟨v.uid, v.node, v.kind, v.src, v.dst, v.flags, v.rc_jobid,
          v.status, v.bytes_done, v.files_done, v.created_at, v.updated_at⟩,
          by simp [job_status, hget], h1, h2, h3, h4, h5, h6, h7⟩

/-- Witness for create_job_then_status: the cexFlags submission queried back
reports running, the submitted fields and the unfiltered flags. -/
theorem create_job_then_status_witness :
    job_status [jobCex] "u1" = Except.ok cexView ∧
    cexView.status = "running" ∧ cexView.flags = cexFlags := by
  obtain ⟨v, hv, hst, hkd, hsr, hds, hfl, hca, hua⟩ :=
    create_job_then_status cfgA [] netJob42 "copy" (some "A") (some "s:a")
      (some "d:b") cexFlags none "u1" 3 "u1" [jobCex] [cexCall] (Or.inl rfl)
      (by decide) (by decide) (by decide) (by decide) (by decide) (by decide)
  have h2 : job_status [jobCex] "u1" = Except.ok cexView := by decide
  have hveq : v = cexView := by
    rw [hv] at h2
    exact Except.ok.inj h2
  rw [hveq] at hv hst hfl
  exact ⟨hv, hst, hfl⟩

/-- Claim C7: one polling round of a stream subscription against a registry
of N nodes emits exactly N events, in registry order, so every event is
tagged with a node id present in the registry; each event carries the round
timestamp and either a stats payload (error flag absent) or the error flag
(stats absent), never both; and a per-node gateway failure yields the
error-flagged event for that node rather than cutting the round short. -/
theorem event_generator_round_spec (cfg : Config)
    (net : RcCallRec → HttpResult) (now : Int) :
    (event_generator_round cfg net now).length = cfg.nodes.length ∧
    (event_generator_round cfg net now).map StreamEvent.node =
      cfg.nodes.map Prod.fst ∧
    (∀ e ∈ event_generator_round cfg net now,
      e.t = now ∧ e.node ∈ cfg.nodes.map Prod.fst ∧
      ((e.error = false ∧ e.stats.isSome) ∨ (e.error = true ∧ e.stats = none))) ∧
    (∀ p ∈ cfg.nodes, ∀ er,
      rc_call p.2 "core/stats" [] (net ⟨p.1, "core/stats", []⟩) =
        Except.error er →
      (⟨now, p.1, none, true⟩ : StreamEvent) ∈
        event_generator_round cfg net now) := by
  refine ⟨by simp [event_generator_round], ?_, ?_, ?_⟩
  · rw [event_generator_round, List.map_map]
    apply List.map_congr_left
    intro p _
    simp only [Function.comp_apply]
    cases rc_call p.2 "core/stats" [] (net ⟨p.1, "core/stats", []⟩) <;> rfl
  · intro e he
    rw [event_generator_round] at he
    obtain ⟨p, hp, hpe⟩ := List.mem_map.1 he
    have hnode : p.1 ∈ cfg.nodes.map Prod.fst := List.mem_map_of_mem _ hp
    cases hc : rc_call p.2 "core/stats" [] (net ⟨p.1, "core/stats", []⟩) with
    | error er =>
      rw [hc] at hpe
      rw [← hpe]
      exact ⟨rfl, hnode, Or.inr ⟨rfl, rfl⟩⟩
    | ok stats =>
      rw [hc] at hpe
      rw [← hpe]
      exact ⟨rfl, hnode, Or.inl ⟨rfl, rfl⟩⟩
  · intro p hp er herr
    rw [event_generator_round]
    refine List.mem_map.2 ⟨p, hp, ?_⟩
    rw [herr]

/-- Witness for event_generator_round_spec: with node A reachable and node
B down, a round over the two-node registry has two events and contains the
error-flagged event for B. -/
theorem event_generator_round_witness :
    (event_generator_round cfgAB netAonly 5).length = 2 ∧
    (⟨5, "B", none, true⟩ : StreamEvent) ∈
      event_generator_round cfgAB netAonly 5 :=
  ⟨(event_generator_round_spec cfgAB netAonly 5).1.trans rfl,
    (event_generator_round_spec cfgAB netAonly 5).2.2.2 ("B", nodeB)
      (by decide) ⟨502, "Error contacting B: connection refused"⟩ (by decide)⟩

/-- Inversion of a failed start_operation: every error path leaves the
store exactly as it was. -/
theorem start_operation_error_store (cfg : Config) (store : List Job)
    (net : RcCallRec → HttpResult) (kind node_id src dst : String)
    (flags : List (String × JVal)) (freshUid : String) (now : Int)
    (e : HubError) (s1 : List Job) (tr : List RcCallRec)
    (hso : start_operation cfg store net kind node_id src dst flags freshUid now =
      (Except.error e, s1, tr)) : s1 = store := by
  unfold start_operation at hso
  cases hl : lookupNode cfg node_id with
  | none =>
    rw [hl] at hso
    simp only [Prod.mk.injEq] at hso
    exact hso.2.1.symm
  | some nd =>
    rw [hl] at hso
    cases hp : path_map kind with
    | none =>
      simp only [hp] at hso
      simp only [Prod.mk.injEq] at hso
      exact hso.2.1.symm
    | some rc_path =>
      simp only [hp] at hso
      cases hc : rc_call nd rc_path (buildPayload src dst flags)
          (net ⟨node_id, rc_path, buildPayload src dst flags⟩) with
      | error e2 =>
        simp only [hc] at hso
        simp only [Prod.mk.injEq] at hso
        exact hso.2.1.symm
      | ok resp =>
        simp only [hc] at hso
        simp at hso

/-- A store moves forward from itself. -/
theorem statusForward_refl (s : List Job) : statusForward s s := by
  constructor
  · intro u j j' h h'
    rw [h] at h'
    exact Or.inl (by rw [← Option.some.inj h'])
  · intro u j' h h'
    rw [h] at h'
    simp at h'

/-- Appending a fresh running row moves the store forward. -/
theorem statusForward_append_running (store : List Job) (rec : Job)
    (hst : rec.status = "running") (hfresh : getJob store rec.uid = none) :
    statusForward store (store ++ [rec]) := by
  constructor
  · intro u j j' h h'
    rw [getJob_append, h] at h'
    simp only [Option.or] at h'
    exact Or.inl (by rw [← Option.some.inj h'])
  · intro u j' h h'
    rw [getJob_append, h] at h'
    simp only [Option.or] at h'
    rw [getJob_singleton] at h'
    by_cases hru : rec.uid = u
    · rw [if_pos hru] at h'
      rw [← Option.some.inj h']
      exact hst
    · rw [if_neg hru] at h'
      simp at h'

/-- Appending a fresh running row and renaming it to an unclaimed key moves
the store forward. -/
theorem statusForward_create_rename (store : List Job) (rec : Job) (k : String)
    (hst : rec.status = "running") (hmiss : getJob store k = none)
    (hfresh : getJob store rec.uid = none) :
    statusForward store (renameUid (store ++ [rec]) rec.uid k) := by
  by_cases hfk : rec.uid = k
  · rw [← hfk, renameUid_same]
    exact statusForward_append_running store rec hst hfresh
  · constructor
    · intro u j j' h h'
      have hu1 : u ≠ rec.uid := by
        intro he
        rw [he] at h
        rw [h] at hfresh
        cases hfresh
      have hu2 : u ≠ k := by
        intro he
        rw [he] at h
        rw [h] at hmiss
        cases hmiss
      rw [getJob_renameUid_other _ _ _ _ hu1 hu2, getJob_append, h] at h'
      simp only [Option.or] at h'
      exact Or.inl (by rw [← Option.some.inj h'])
    · intro u j' h h'
      by_cases huk : u = k
      · have hnew : ∀ j'' ∈ store ++ [rec], j''.uid ≠ k := by
          intro j'' hj''
          rcases List.mem_append.1 hj'' with hj'' | hj''
          · exact (getJob_eq_none_iff store k).1 hmiss j'' hj''
          · have he : j'' = rec := by simpa using hj''
            rw [he]
            exact hfk
        rw [huk, getJob_renameUid_new _ _ _ hnew, getJob_append, hfresh] at h'
        simp only [Option.or] at h'
        rw [getJob_singleton, if_pos rfl] at h'
        simp only [Option.map] at h'
        rw [← Option.some.inj h']
        exact hst
      · by_cases hurec : u = rec.uid
        · rw [hurec, getJob_renameUid_old _ _ _ hfk] at h'
          cases h'
        · rw [getJob_renameUid_other _ _ _ _ hurec huk, getJob_append, h] at h'
          simp only [Option.or] at h'
          rw [getJob_singleton] at h'
          by_cases hru : rec.uid = u
          · exact absurd hru.symm hurec
          · rw [if_neg hru] at h'
            cases h'

/-- Writing status stopped on a row known to be running moves the store
forward. -/
theorem statusForward_stop (store : List Job) (u : String) (now2 : Int)
    (j : Job) (hj : getJob store u = some j) (hrun : j.status = "running") :
    statusForward store (updateStatus store u "stopped" now2) := by
  constructor
  · intro v jv jv' h h'
    rw [getJob_updateStatus, h] at h'
    simp only [Option.map] at h'
    have hinj := Option.some.inj h'
    by_cases hvu : jv.uid = u
    · rw [if_pos hvu] at hinj
      have hv_u : v = u := by rw [← getJob_some_uid h, hvu]
      have hjv : jv = j := by
        rw [hv_u] at h
        rw [h] at hj
        exact Option.some.inj hj
      right
      constructor
      · rw [hjv]
        exact hrun
      · rw [← hinj]
    · rw [if_neg hvu] at hinj
      exact Or.inl (by rw [← hinj])
  · intro v jv' h h'
    rw [getJob_updateStatus, h] at h'
    simp at h'

/-- Claim C8: job status only moves forward.  Every create_job outcome and
every stop_job outcome relate the store before to the store after by
statusForward: rows keep their status except for the single running to
stopped transition, and rows created by a submission start as running.
job_status and the stream rounds read the store or the network only, so no
other core operation writes a status. -/
theorem status_only_forward (cfg : Config) (store : List Job)
    (net net2 : RcCallRec → HttpResult) (kind : String)
    (node src dst : Option String) (flags : List (String × JVal))
    (idempotency_key : Option String) (freshUid : String) (now now2 : Int)
    (u : String)
    (hfresh : getJob store freshUid = none) :
    (∀ r s1 tr, create_job cfg store net kind node src dst flags
        idempotency_key freshUid now = (r, s1, tr) → statusForward store s1) ∧
    (∀ r s1 tr, stop_job cfg store net2 u now2 = (r, s1, tr) →
      statusForward store s1) := by
  constructor
  · intro r s1 tr hcj
    rw [create_job] at hcj
    by_cases h1 : ¬ (kind = "copy" ∨ kind = "move" ∨ kind = "sync")
    · rw [if_pos h1] at hcj
      simp only [Prod.mk.injEq] at hcj
      rw [← hcj.2.1]
      exact statusForward_refl store
    · rw [if_neg h1] at hcj
      by_cases h2 : truthyStr node = false ∨ truthyStr src = false ∨
          truthyStr dst = false
      · rw [if_pos h2] at hcj
        simp only [Prod.mk.injEq] at hcj
        rw [← hcj.2.1]
        exact statusForward_refl store
      · rw [if_neg h2] at hcj
        by_cases h3 : idemHit store idempotency_key = true
        · rw [if_pos h3] at hcj
          simp only [Prod.mk.injEq] at hcj
          rw [← hcj.2.1]
          exact statusForward_refl store
        · rw [if_neg h3] at hcj
          rcases hso : start_operation cfg store net kind (node.getD "")
              (src.getD "") (dst.getD "") flags freshUid now with ⟨r0, s1', tr'⟩
          rw [hso] at hcj
          cases r0 with
          | error e =>
            have hst := start_operation_error_store cfg store net kind
              (node.getD "") (src.getD "") (dst.getD "") flags freshUid now e
              s1' tr' hso
            simp only [Prod.mk.injEq] at hcj
            rw [← hcj.2.1, hst]
            exact statusForward_refl store
          | ok uid0 =>
            obtain ⟨huid, nd, rc_path, resp, hl, hp, hc, hsave, htrace⟩ :=
              start_operation_ok_inv cfg store net kind (node.getD "")
                (src.getD "") (dst.getD "") flags freshUid now uid0 s1' tr' hso
            have hs1'eq : s1' = store ++ [⟨freshUid, node.getD "", kind,
                src.getD "", dst.getD "", flags, dictGet resp "jobid",
                "running", 0, 0, now, now⟩] :=
              hsave.trans (save_job_fresh hfresh)
            cases idempotency_key with
            | none =>
              simp only [Prod.mk.injEq] at hcj
              rw [← hcj.2.1, hs1'eq]
              exact statusForward_append_running store _ rfl hfresh
            | some k =>
              by_cases hk : k = ""
              · subst hk
                dsimp only at hcj
                rw [if_pos rfl] at hcj
                simp only [Prod.mk.injEq] at hcj
                rw [← hcj.2.1, hs1'eq]
                exact statusForward_append_running store _ rfl hfresh
              · dsimp only at hcj
                rw [if_neg hk] at hcj
                simp only [Prod.mk.injEq] at hcj
                have hb : idemHit store (some k) = false := by
                  cases hb2 : idemHit store (some k)
                  · rfl
                  · exact absurd hb2 h3
                have hmiss : getJob store k = none := idemHit_false_miss hk hb
                rw [← hcj.2.1, huid, hs1'eq]
                exact statusForward_create_rename store _ k rfl hmiss hfresh
  · intro r s1 tr hstp
    unfold stop_job at hstp
    cases hg : getJob store u with
    | none =>
      rw [hg] at hstp
      simp only [Prod.mk.injEq] at hstp
      rw [← hstp.2.1]
      exact statusForward_refl store
    | some j =>
      rw [hg] at hstp
      dsimp only at hstp
      by_cases hrun : j.status ≠ "running"
      · rw [if_pos hrun] at hstp
        simp only [Prod.mk.injEq] at hstp
        rw [← hstp.2.1]
        exact statusForward_refl store
      · rw [if_neg hrun] at hstp
        cases hl : lookupNode cfg j.node with
        | none =>
          simp only [hl] at hstp
          simp only [Prod.mk.injEq] at hstp
          rw [← hstp.2.1]
          exact statusForward_refl store
        | some nd =>
          simp only [hl] at hstp
          cases hc : rc_call nd "job/stop"
              [("jobid", j.rc_jobid.getD JVal.null)]
              (net2 ⟨j.node, "job/stop",
                [("jobid", j.rc_jobid.getD JVal.null)]⟩) with
          | error e =>
            simp only [hc] at hstp
            simp only [Prod.mk.injEq] at hstp
            rw [← hstp.2.1]
            exact statusForward_refl store
          | ok resp =>
            simp only [hc] at hstp
            simp only [Prod.mk.injEq] at hstp
            rw [← hstp.2.1]
            exact statusForward_stop store u now2 j hg (of_not_not hrun)

/-- Witness for status_only_forward: creating the sample job K appends a
running row, and stopping the running sample job J performs the single
running to stopped transition. -/
theorem status_only_forward_witness :
    statusForward [] [jobK] ∧ statusForward [jobRun] [jobStopped] := by
  constructor
  · exact (status_only_forward cfgA [] netJob42 netJob42 "copy" (some "A")
      (some "s:a") (some "d:b") [] (some "K") "u1" 3 9 "J" (by decide)).1
      (Except.ok "K") [jobK] [callCopyAB] (by decide)
  · exact (status_only_forward cfgA [jobRun] netJob42 netJob42 "copy"
      (some "A") (some "s:a") (some "d:b") [] (some "K") "u1" 3 9 "J"
      (by decide)).2 (Except.ok ⟨"J", true, none⟩) [jobStopped] [stopCallJ]
      (by decide)

end RcloneHub
